import Mathlib

set_option autoImplicit false

/-!
Shallow embedding of `check-broken-packages` (`src/main.rs`) and proofs about
its specification.

External processes (`pacman`, `ldd`) and the filesystem are modelled as
explicit inputs: a process invocation result is a `ProcOutput` (exit-status
success flag plus captured stdout lines), a failed spawn is `Option.none` /
an explicit parameter, and filesystem metadata queries are functions passed
in.  String manipulation from the Rust standard library (`split`,
`trim_start`, `ends_with`, `u8::from_str`) is embedded as executable
functions on character lists below.
-/

deriving instance DecidableEq for Except

namespace CheckBrokenPackages

/-- Embedding of Rust `str::split(sep)`: splits at every occurrence of `sep`,
keeping empty pieces; the result is always nonempty (splitting the empty
string yields one empty piece, like Rust's iterator). -/
def splitChar (sep : Char) : List Char → List (List Char)
  | [] => [[]]
  | c :: rest =>
    if c = sep then [] :: splitChar sep rest
    else
      match splitChar sep rest with
      | [] => [[c]]
      | t :: ts => (c :: t) :: ts

theorem splitChar_ne_nil (sep : Char) (l : List Char) : splitChar sep l ≠ [] := by
  induction l with
  | nil => simp [splitChar]
  | cons c rest ih =>
    simp only [splitChar]
    split
    · simp
    · match h : splitChar sep rest with
      | [] => simp
      | t :: ts => simp

/-- The first piece of a character split is the longest sep-free first segment. -/
theorem splitChar_headI (sep : Char) (l : List Char) :
    (splitChar sep l).headI = l.takeWhile (fun c => c != sep) := by
  induction l with
  | nil => simp [splitChar]
  | cons c rest ih =>
    simp only [splitChar, List.takeWhile]
    by_cases hc : c = sep
    · simp [hc]
    · simp only [if_neg hc]
      have hne := splitChar_ne_nil sep rest
      match h : splitChar sep rest with
      | [] => exact absurd h hne
      | t :: ts =>
        rw [h] at ih
        simp only [List.headI] at ih
        have hb : (c != sep) = true := by simp [bne_iff_ne, hc]
        simp [List.headI, ih, hb]

/-- Embedding of Rust `str::trim_start` (restricted to ASCII whitespace,
which is all that occurs in the parsed tool output). -/
def trimStartChars (l : List Char) : List Char :=
  l.dropWhile Char.isWhitespace

/-- Embedding of Rust `str::ends_with`. -/
def endsWithStr (s suffix : String) : Bool :=
  suffix.toList.isSuffixOf s.toList

/-- Captured result of a successfully spawned external process: exit-status
success flag and the lines of its standard output. -/
structure ProcOutput where
  success : Bool
  stdout : List String
  deriving Repr, DecidableEq

/-- Embedding of `get_missing_dependencies` (src/main.rs lines 192-213), given
the captured output of the spawned `ldd` process: if the invocation succeeded,
keep every stdout line ending with the marker, mapped to its first
space-separated token with leading whitespace trimmed; otherwise report no
missing dependencies. -/
def get_missing_dependencies (ldd_out : ProcOutput) : List String :=
  if ldd_out.success then
    (ldd_out.stdout.filter (fun l => endsWithStr l "=> not found")).map
      (fun l => String.mk (trimStartChars (splitChar ' ' l.toList).headI))
  else []

/-- C1: for every input line to the `get_missing_dependencies` parser, the
line is classified as a missing-dependency line iff it ends with the literal
suffix `=> not found`; each classified line contributes the substring before
its first space character with leading whitespace removed; other lines
contribute nothing, and output order follows input order (a filter-then-map
of the input lines). -/
theorem get_missing_dependencies_parses_not_found_lines (ldd_out : ProcOutput)
    (h : ldd_out.success = true) :
    get_missing_dependencies ldd_out =
      (ldd_out.stdout.filter (fun l => "=> not found".toList.isSuffixOf l.toList)).map
        (fun l =>
          String.mk ((l.toList.takeWhile (fun c => c != ' ')).dropWhile Char.isWhitespace)) := by
  simp only [get_missing_dependencies, h, if_pos, endsWithStr, trimStartChars,
    splitChar_headI]

/-- Sample `ldd` output, as in the repository's own test: one loader line,
missing-dependency lines, and resolved lines. -/
def sampleLddOutput : ProcOutput :=
  { success := true
    stdout :=
      ["\tlinux-vdso.so.1 (0x00007ffea89a7000)",
       "\tlibavdevice.so.57 => not found",
       "\tlibswscale.so.4 => not found",
       "\tlibm.so.6 => /usr/lib/libm.so.6 (0x00007f4bd9cc3000)",
       "\t/lib64/ld-linux-x86-64.so.2 => /usr/lib64/ld-linux-x86-64.so.2 (0x1)"] }

theorem get_missing_dependencies_parses_not_found_lines_witness :
    sampleLddOutput.success = true ∧
      get_missing_dependencies sampleLddOutput =
        (sampleLddOutput.stdout.filter
            (fun l => "=> not found".toList.isSuffixOf l.toList)).map
          (fun l =>
            String.mk
              ((l.toList.takeWhile (fun c => c != ' ')).dropWhile Char.isWhitespace)) ∧
      get_missing_dependencies sampleLddOutput =
        ["libavdevice.so.57", "libswscale.so.4"] :=
  ⟨rfl, get_missing_dependencies_parses_not_found_lines sampleLddOutput rfl, by decide⟩

/-- Executable file work unit for a check-stage worker thread (src/main.rs
lines 26-37). -/
structure ExecFileWork where
  package : String
  exec_filepath : String
  package_last : Bool
  deriving Repr, DecidableEq

/-- Work items a discovery worker sends for one package with a nonempty
executable list (src/main.rs lines 385-395): one item per file, in order,
with `package_last` set exactly on the item whose index is `len - 1`. -/
def package_work_items (package : String) (exec_files : List String) :
    List ExecFileWork :=
  (exec_files.enum).map
    (fun p => { package := package, exec_filepath := p.2,
                package_last := p.1 == exec_files.length - 1 })

/-- Progress increments the discovery worker itself performs for one package
(src/main.rs lines 370-384): one on a file-listing error, one on an empty
executable list, none otherwise. -/
def discovery_progress_incs (r : Except String (List String)) : Nat :=
  match r with
  | .error _ => 1
  | .ok files => if files.isEmpty then 1 else 0

/-- Work items the discovery worker sends for one package (src/main.rs lines
370-395): none on error or empty list, else one per executable file. -/
def discovery_sent_items (package : String) (r : Except String (List String)) :
    List ExecFileWork :=
  match r with
  | .error _ => []
  | .ok files => if files.isEmpty then [] else package_work_items package files

/-- Progress increments the check-stage workers perform over a list of work
items (src/main.rs lines 347-349): one per item with `package_last` set. -/
def check_progress_incs (items : List ExecFileWork) : Nat :=
  items.countP (fun w => w.package_last)

/-- The executable-file list carried by a discovery result (empty on error). -/
def filesOf : Except String (List String) → List String
  | .error _ => []
  | .ok files => files

theorem filter_enumFrom_of_lt {α : Type} (l : List α) (k t : Nat) (h : t < k) :
    (List.enumFrom k l).filter (fun p => p.1 == t) = [] := by
  induction l generalizing k with
  | nil => rfl
  | cons a l ih =>
    have hk : (k == t) = false := by simp [Nat.ne_of_gt h]
    simp only [List.enumFrom, List.filter_cons, hk]
    exact ih (k + 1) (Nat.lt_succ_of_lt h)

theorem filter_enumFrom_eq {α : Type} (l : List α) (k t : Nat) :
    (List.enumFrom k l).filter (fun p => p.1 == t) =
      if k ≤ t then
        match l[t - k]? with
        | none => []
        | some x => [(t, x)]
      else [] := by
  induction l generalizing k with
  | nil =>
    simp only [List.enumFrom, List.filter_nil, List.getElem?_nil]
    split <;> rfl
  | cons a l ih =>
    simp only [List.enumFrom, List.filter_cons]
    by_cases hk : k = t
    · subst hk
      have h1 : (k == k) = true := by simp
      have h2 : (List.enumFrom (k + 1) l).filter (fun p => p.1 == k) = [] :=
        filter_enumFrom_of_lt l (k + 1) k (Nat.lt_succ_self k)
      simp [h1, h2, Nat.sub_self]
    · have h1 : (k == t) = false := by simp [hk]
      simp only [h1, Bool.false_eq_true, if_false, ih (k + 1)]
      by_cases hle : k ≤ t
      · have hlt : k + 1 ≤ t := Nat.lt_of_le_of_ne hle hk
        have hsub : t - k = (t - (k + 1)) + 1 := by omega
        simp only [if_pos hle, if_pos hlt, hsub, List.getElem?_cons_succ]
      · have hlt : ¬(k + 1 ≤ t) := by omega
        simp only [if_neg hle, if_neg hlt]

/-- C2: for every package, the progress counter is incremented exactly once
over the whole run: the discovery worker increments it exactly when the
package yields an error or an empty executable list, and otherwise exactly
one sent work item is flagged `package_last` — the one carrying the last
discovered executable — and the check-stage worker increments once for it,
never once per file. -/
theorem progress_incremented_once_per_package (pkg : String)
    (r : Except String (List String)) :
    discovery_progress_incs r +
        check_progress_incs (discovery_sent_items pkg r) = 1 ∧
      (discovery_sent_items pkg r).filter (fun w => w.package_last) =
        (match (filesOf r).getLast? with
         | none => []
         | some f => [{ package := pkg, exec_filepath := f, package_last := true }]) := by
  have key : ∀ files : List String, files ≠ [] →
      (package_work_items pkg files).filter (fun w => w.package_last) =
        (match files.getLast? with
         | none => []
         | some f => [{ package := pkg, exec_filepath := f,
                        package_last := true }]) := by
    intro files hne
    have hlen : 0 < files.length := List.length_pos.mpr hne
    have hfil := filter_enumFrom_eq files 0 (files.length - 1)
    rw [if_pos (Nat.zero_le _), Nat.sub_zero] at hfil
    have hget : files[files.length - 1]? = files.getLast? :=
      (List.getLast?_eq_getElem? files).symm
    rw [hget] at hfil
    have henum : files.enum = List.enumFrom 0 files := rfl
    unfold package_work_items
    rw [List.filter_map, henum]
    have hcomp :
        ((fun w : ExecFileWork => w.package_last) ∘
            (fun p : Nat × String =>
              ({ package := pkg, exec_filepath := p.2,
                 package_last := p.1 == files.length - 1 } : ExecFileWork))) =
          fun p : Nat × String => p.1 == files.length - 1 := rfl
    rw [hcomp, hfil, List.getLast?_eq_getLast files hne]
    simp
  constructor
  · match r with
    | .error e => rfl
    | .ok files =>
      match files with
      | [] => rfl
      | f0 :: rest =>
        have hne : (f0 :: rest) ≠ ([] : List String) := by simp
        simp only [discovery_progress_incs, discovery_sent_items, List.isEmpty_cons,
          if_neg, Bool.false_eq_true, if_false, Nat.zero_add, check_progress_incs]
        rw [List.countP_eq_length_filter, key (f0 :: rest) hne]
        have : (f0 :: rest).getLast? = some ((f0 :: rest).getLast hne) :=
          List.getLast?_eq_getLast (f0 :: rest) hne
        rw [this]
        simp
  · match r with
    | .error e => rfl
    | .ok files =>
      match files with
      | [] => rfl
      | f0 :: rest =>
        have hne : (f0 :: rest) ≠ ([] : List String) := by simp
        simp only [discovery_sent_items, List.isEmpty_cons, Bool.false_eq_true,
          if_false, filesOf]
        exact key (f0 :: rest) hne

/-- Metadata of a path as returned by a successful `fs::metadata` call in the
discovery stage (symlinks already resolved by the OS): whether the entry is a
regular file, and its permission mode bits. -/
structure FileMeta where
  is_file : Bool
  mode : Nat
  deriving Repr, DecidableEq

/-- The per-line loop body of `get_package_executable_files` (src/main.rs
lines 171-187): the candidate path is the second space-separated token of the
line (a missing token aborts the whole listing with an error), a failed
`fs::metadata` (modelled by `stat` returning `none`) skips the line, and the
path is kept iff the metadata shows a regular file with an execute bit. -/
def gpef_lines (stat : String → Option FileMeta) :
    List String → Except String (List String)
  | [] => .ok []
  | line :: rest =>
    match (splitChar ' ' line.toList)[1]? with
    | none => .error "Unexpected pacman output: unable to parse package file list"
    | some pathChars =>
      match stat (String.mk pathChars) with
      | none => gpef_lines stat rest
      | some m =>
        if m.is_file && (m.mode &&& 0o111 != 0) then
          (gpef_lines stat rest).map (fun files => String.mk pathChars :: files)
        else gpef_lines stat rest

/-- Embedding of `get_package_executable_files` (src/main.rs lines 162-190),
given the metadata oracle and the captured `pacman -Ql` output. -/
def get_package_executable_files (stat : String → Option FileMeta)
    (out : ProcOutput) : Except String (List String) :=
  if out.success then gpef_lines stat out.stdout
  else .error "Failed to list files for package with pacman"

/-- The retention test of the discovery loop: the stat result exists, is a
regular file, and has at least one execute-permission bit. -/
def isExecFile (stat : String → Option FileMeta) (path : String) : Bool :=
  match stat path with
  | none => false
  | some m => m.is_file && (m.mode &&& 0o111 != 0)

theorem gpef_lines_ok (stat : String → Option FileMeta) :
    ∀ (lines : List String) (files : List String),
      gpef_lines stat lines = .ok files →
      files =
        (lines.filterMap
            (fun l => ((splitChar ' ' l.toList)[1]?).map (fun cs => String.mk cs))).filter
          (isExecFile stat)
  | [], files, h => by
    simp only [gpef_lines] at h
    cases h
    rfl
  | line :: rest, files, h => by
    cases hsplit : (splitChar ' ' line.toList)[1]? with
    | none =>
      simp only [gpef_lines, hsplit] at h
      exact absurd h (by simp)
    | some cs =>
      simp only [gpef_lines, hsplit] at h
      simp only [List.filterMap_cons, hsplit, Option.map_some]
      cases hstat : stat (String.mk cs) with
      | none =>
        simp only [hstat] at h
        have ih := gpef_lines_ok stat rest files h
        simp [List.filter_cons, isExecFile, hstat, ih]
      | some m =>
        simp only [hstat] at h
        by_cases hexec : (m.is_file && (m.mode &&& 0o111 != 0)) = true
        · rw [if_pos hexec] at h
          cases hrec : gpef_lines stat rest with
          | error e =>
            rw [hrec] at h
            exact absurd h (by simp [Except.map])
          | ok fs2 =>
            rw [hrec] at h
            simp only [Except.map] at h
            cases h
            have ih := gpef_lines_ok stat rest fs2 hrec
            simp [List.filter_cons, isExecFile, hstat, hexec, ih]
        · rw [if_neg hexec] at h
          have ih := gpef_lines_ok stat rest files h
          simp [List.filter_cons, isExecFile, hstat, hexec, ih]

/-- Metadata oracle for a small scenario with one executable under `/opt/`. -/
def optStat : String → Option FileMeta :=
  fun p =>
    if p = "/opt/app/bin/tool" then some { is_file := true, mode := 0o755 }
    else none

/-- Captured `pacman -Ql` output listing one file under `/opt/`. -/
def optListing : ProcOutput :=
  { success := true, stdout := ["optpkg /opt/app/bin/tool"] }

/-- C3 counterexample: the discovery stage has no blacklisted path handling —
a regular executable file under `/opt/` is retained, and the dependency-check
parser then produces a missing-dependency name for such a file when the
linker output reports one. -/
theorem no_blacklist_counterexample :
    get_package_executable_files optStat optListing = .ok ["/opt/app/bin/tool"] ∧
      "/opt/".toList.isPrefixOf "/opt/app/bin/tool".toList = true ∧
      get_missing_dependencies
          { success := true, stdout := ["\tlibfoo.so.1 => not found"] } =
        ["libfoo.so.1"] := by
  refine ⟨?_, ?_, ?_⟩ <;> decide

/-- C3 (amended): the discovery stage applies no path-prefix blacklist: a
successful listing retains exactly the second-token paths whose metadata
shows a regular file with an execute-permission bit — the retention test
depends only on the metadata, never on the path's prefix. -/
theorem get_package_executable_files_retains_by_mode_only
    (stat : String → Option FileMeta) (out : ProcOutput)
    (files : List String)
    (h : get_package_executable_files stat out = .ok files) :
    files =
      (out.stdout.filterMap
          (fun l => ((splitChar ' ' l.toList)[1]?).map (fun cs => String.mk cs))).filter
        (isExecFile stat) := by
  unfold get_package_executable_files at h
  by_cases hs : out.success = true
  · rw [if_pos hs] at h
    exact gpef_lines_ok stat out.stdout files h
  · rw [if_neg hs] at h
    exact absurd h (by simp)

theorem get_package_executable_files_retains_by_mode_only_witness :
    get_package_executable_files optStat optListing = .ok ["/opt/app/bin/tool"] ∧
      ["/opt/app/bin/tool"] =
        (optListing.stdout.filterMap
            (fun l => ((splitChar ' ' l.toList)[1]?).map (fun cs => String.mk cs))).filter
          (isExecFile optStat) :=
  ⟨by decide,
   get_package_executable_files_retains_by_mode_only optStat optListing
     ["/opt/app/bin/tool"] (by decide)⟩

/-- The candidate file path of a listing line as the spec words it: the
token between the first space character and the following space (or end of
line); `none` when the line contains no space at all. -/
def spec_second_token (l : List Char) : Option (List Char) :=
  match l.dropWhile (fun c => c != ' ') with
  | [] => none
  | _ :: rest => some (rest.takeWhile (fun c => c != ' '))

theorem getElem0_of_ne_nil {α : Type} [Inhabited α] :
    ∀ (l : List α), l ≠ [] → l[0]? = some l.headI
  | [], h => absurd rfl h
  | _ :: _, _ => by simp [List.headI]

/-- The second piece of a space split is exactly the token between the first
and second space characters. -/
theorem splitChar_get1 : ∀ l : List Char, (splitChar ' ' l)[1]? = spec_second_token l
  | [] => rfl
  | c :: rest => by
    by_cases hc : c = ' '
    · subst hc
      have hne := splitChar_ne_nil ' ' rest
      simp only [splitChar, eq_self_iff_true, if_true, List.getElem?_cons_succ]
      rw [getElem0_of_ne_nil _ hne, splitChar_headI]
      simp [spec_second_token, List.dropWhile_cons]
    · have hb : (c != ' ') = true := by simp [bne_iff_ne, hc]
      have hne := splitChar_ne_nil ' ' rest
      have ih := splitChar_get1 rest
      simp only [splitChar, if_neg hc]
      match hsp : splitChar ' ' rest with
      | [] => exact absurd hsp hne
      | t :: ts =>
        rw [hsp] at ih
        simp only [List.getElem?_cons_succ] at ih ⊢
        rw [ih]
        simp [spec_second_token, List.dropWhile_cons, hb]

theorem gpef_lines_error_of_bad (stat : String → Option FileMeta) :
    ∀ lines : List String,
      (∃ l, l ∈ lines ∧ (splitChar ' ' l.toList)[1]? = none) →
      gpef_lines stat lines =
        .error "Unexpected pacman output: unable to parse package file list"
  | [], h => absurd h (by simp)
  | line :: rest, h => by
    cases hsplit : (splitChar ' ' line.toList)[1]? with
    | none => simp only [gpef_lines, hsplit]
    | some cs =>
      have hrest : ∃ l, l ∈ rest ∧ (splitChar ' ' l.toList)[1]? = none := by
        obtain ⟨l, hl, hn⟩ := h
        cases hl with
        | head => rw [hsplit] at hn; exact absurd hn (by simp)
        | tail _ hmem => exact ⟨l, hmem, hn⟩
      have ih := gpef_lines_error_of_bad stat rest hrest
      simp only [gpef_lines, hsplit]
      cases hstat : stat (String.mk cs) with
      | none => exact ih
      | some m =>
        simp only [ih]
        split <;> rfl

/-- C10: the discovery stage takes as candidate path exactly the second
space-separated token of each listing line (the substring between the first
and second space characters); a line containing no space character makes the
whole package listing return a parse error, and an erroring listing
contributes zero work items for that package. -/
theorem gpef_spaceless_line_aborts_listing (stat : String → Option FileMeta)
    (out : ProcOutput) (l0 : String) (hs : out.success = true)
    (hmem : l0 ∈ out.stdout) (hnospace : ∀ c ∈ l0.toList, c ≠ ' ') :
    (∀ l : List Char, (splitChar ' ' l)[1]? = spec_second_token l) ∧
      get_package_executable_files stat out =
        .error "Unexpected pacman output: unable to parse package file list" ∧
      ∀ (pkg : String) (e : String), discovery_sent_items pkg (.error e) = [] := by
  refine ⟨splitChar_get1, ?_, fun pkg e => rfl⟩
  unfold get_package_executable_files
  rw [if_pos hs]
  apply gpef_lines_error_of_bad
  refine ⟨l0, hmem, ?_⟩
  rw [splitChar_get1]
  unfold spec_second_token
  have hdw : l0.toList.dropWhile (fun c => c != ' ') = [] := by
    rw [List.dropWhile_eq_nil_iff]
    intro x hx
    simp [bne_iff_ne, hnospace x hx]
  rw [hdw]

theorem gpef_spaceless_line_aborts_listing_witness :
    (({ success := true, stdout := ["badline"] } : ProcOutput).success = true ∧
        "badline" ∈ ({ success := true, stdout := ["badline"] } : ProcOutput).stdout ∧
        ∀ c ∈ "badline".toList, c ≠ ' ') ∧
      get_package_executable_files (fun _ => none)
          { success := true, stdout := ["badline"] } =
        .error "Unexpected pacman output: unable to parse package file list" :=
  ⟨⟨rfl, by simp, by decide⟩,
   (gpef_spaceless_line_aborts_listing (fun _ => none)
       { success := true, stdout := ["badline"] } "badline" rfl (by simp)
       (by decide)).2.1⟩

/-- A spawned external command as the code configures it: program name,
argument list, and the explicit environment overrides added with
`Command::env`. -/
structure CommandSpec where
  program : String
  args : List String
  env_overrides : List (String × String)
  deriving Repr, DecidableEq

/-- Embedding of the `ldd` invocation built by `get_missing_dependencies`
(src/main.rs lines 195-198): `ldd <exec_file>` with the single environment
override `LANG=C`. -/
def ldd_command (exec_file : String) : CommandSpec :=
  { program := "ldd", args := [exec_file], env_overrides := [("LANG", "C")] }

/-- C4 counterexample: the `ldd` invocation does not seed `LD_LIBRARY_PATH`
with the checked file's containing directory — its only environment override
is `LANG=C`. -/
theorem ldd_no_ld_library_path_counterexample :
    (ldd_command "/opt/app/bin/tool").env_overrides.lookup "LD_LIBRARY_PATH" = none ∧
      ¬((ldd_command "/opt/app/bin/tool").env_overrides.lookup "LD_LIBRARY_PATH" =
          some "/opt/app/bin") := by
  refine ⟨?_, ?_⟩ <;> decide

/-- C4 (amended): for every checked executable file, the dependency check
invokes `ldd` with the file's path as its only argument and `LANG=C` as its
only environment override; `LD_LIBRARY_PATH` is never set. -/
theorem ldd_command_env_overrides (exec_file : String) :
    ldd_command exec_file =
        { program := "ldd", args := [exec_file], env_overrides := [("LANG", "C")] } ∧
      (ldd_command exec_file).env_overrides.lookup "LD_LIBRARY_PATH" = none :=
  ⟨rfl, rfl⟩

/-- Embedding of `get_aur_packages` (src/main.rs lines 148-160), given the
captured `pacman -Qqm` output. -/
def get_aur_packages (out : ProcOutput) : Except String (List String) :=
  if out.success then .ok out.stdout
  else .error "Failed to list packages with pacman"

/-- The audited package inventory computed by `main` (src/main.rs lines
293-300): `main` reads no command-line arguments anywhere — the inventory is
always the result of `get_aur_packages`. -/
def audited_packages (cli_args : List String) (pacman_qqm : ProcOutput) :
    Except String (List String) :=
  get_aur_packages pacman_qqm

/-- C5 counterexample: with an explicit positional argument supplied, the
audited inventory is still the full foreign package list, not the supplied
identifier. -/
theorem cli_args_ignored_counterexample :
    audited_packages ["somepkg"] { success := true, stdout := ["foo", "bar"] } =
        .ok ["foo", "bar"] ∧
      ¬(audited_packages ["somepkg"] { success := true, stdout := ["foo", "bar"] } =
          .ok ["somepkg"]) := by
  refine ⟨?_, ?_⟩ <;> decide

/-- C5 (amended): the audited package inventory never depends on the
command-line arguments: it is always the foreign package set queried from the
package manager (its stdout lines on success, a fatal error otherwise). -/
theorem audited_packages_ignore_cli_args (cli_args : List String)
    (pacman_qqm : ProcOutput) :
    audited_packages cli_args pacman_qqm = get_aur_packages pacman_qqm ∧
      audited_packages cli_args pacman_qqm =
        (if pacman_qqm.success then .ok pacman_qqm.stdout
         else .error "Failed to list packages with pacman") :=
  ⟨rfl, rfl⟩

/-- Embedding of `get_package_owning_path` (src/main.rs lines 108-116): a
failed spawn (`none`) is the only error; otherwise the stdout lines are
returned unconditionally — the exit status is never inspected. -/
def get_package_owning_path (spawn_result : Option ProcOutput) :
    Except String (List String) :=
  match spawn_result with
  | none => .error "failed to spawn pacman"
  | some out => .ok out.stdout

/-- C9: the packages-owning-path query ignores the exit status entirely: any
spawned invocation returns exactly its stdout lines, so a non-zero exit with
empty output (path owned by no package) yields the empty list rather than an
error; only a spawn failure yields an error. -/
theorem get_package_owning_path_ignores_exit_status :
    (∀ out : ProcOutput, get_package_owning_path (some out) = .ok out.stdout) ∧
      get_package_owning_path (some { success := false, stdout := [] }) = .ok [] ∧
      get_package_owning_path none = .error "failed to spawn pacman" :=
  ⟨fun _ => rfl, rfl, rfl⟩

/-- A directory entry of the modelled filesystem, as seen without following
symlinks (`lstat` view). -/
inductive FsNode where
  | file
  | dir
  | symlink (target : String)
  | other
  deriving Repr, DecidableEq

/-- A flat filesystem: an association list from paths to entries. -/
def Fs : Type := List (String × FsNode)

/-- File type reported by a successful `fs::metadata` call (`Metadata::file_type`). -/
inductive MetaType where
  | file
  | dir
  | symlink
  | other
  deriving Repr, DecidableEq

/-- Embedding of `fs::read_link`: succeeds exactly on a symlink, returning its
immediate target. -/
def readLink (fs : Fs) (p : String) : Except String String :=
  match List.lookup p fs with
  | some (.symlink t) => .ok t
  | _ => .error "read_link failed"

/-- Symlink resolution performed inside the OS `stat` call that backs
`fs::metadata`: follow symlinks up to the given depth bound, failing with
`ELOOP` when the bound is exhausted, as POSIX `stat` does. -/
def statResolve (fs : Fs) : Nat → String → Except String MetaType
  | 0, _ => .error "ELOOP: too many levels of symbolic links"
  | depth + 1, p =>
    match List.lookup p fs with
    | none => .error "ENOENT: no such file or directory"
    | some .file => .ok .file
    | some .dir => .ok .dir
    | some .other => .ok .other
    | some (.symlink t) => statResolve fs depth t

/-- The symlink-depth bound of the modelled OS (Linux `MAXSYMLINKS`). -/
def MAXSYMLINKS : Nat := 40

/-- Embedding of `fs::metadata`: `stat` semantics, following symlinks. -/
def metadata (fs : Fs) (p : String) : Except String MetaType :=
  statResolve fs MAXSYMLINKS p

/-- The `loop` of `is_valid_link` (src/main.rs lines 240-260), with an
explicit iteration bound: `none` means the loop has not returned within
`fuel` iterations.  Each iteration re-reads the link, then stats the target:
a metadata failure yields `Ok(false)`, a regular file `Ok(true)`, a symlink
file type continues the loop, and any other file type is an error. -/
def is_valid_link_loop (fs : Fs) : Nat → String → Option (Except String Bool)
  | 0, _ => none
  | fuel + 1, target =>
    match readLink fs target with
    | .error e => some (.error e)
    | .ok t =>
      match metadata fs t with
      | .error _ => some (.ok false)
      | .ok mt =>
        match mt with
        | .file => some (.ok true)
        | .symlink => is_valid_link_loop fs fuel t
        | _ => some (.error ("Unexpected file type for " ++ t))

/-- Embedding of `is_valid_link` (src/main.rs lines 238-261).  The loop bound
`MAXSYMLINKS` is immaterial: the result is proved identical for every bound
of at least one iteration. -/
def is_valid_link (fs : Fs) (link : String) : Option (Except String Bool) :=
  is_valid_link_loop fs MAXSYMLINKS link

/-- The metadata call never reports the symlink file type: `stat` always
resolves symlinks away (or fails). -/
theorem statResolve_ne_symlink (fs : Fs) :
    ∀ (depth : Nat) (p : String), statResolve fs depth p ≠ .ok .symlink := by
  intro depth
  induction depth with
  | zero => intro p; simp [statResolve]
  | succ d ih =>
    intro p
    simp only [statResolve]
    cases List.lookup p fs with
    | none => simp
    | some node => cases node with
      | file => simp
      | dir => simp
      | other => simp
      | symlink t => exact ih t

/-- The service-link loop of `main` (src/main.rs lines 412-417): collect the
links `is_valid_link` reports invalid; an `Err` from `is_valid_link` is
`unwrap`ped, which panics — modelled as `none`, aborting the whole run with
no result. -/
def process_service_links (fs : Fs) : List String → Option (List String)
  | [] => some []
  | link :: rest =>
    match is_valid_link fs link with
    | none => none
    | some (.error _) => none
    | some (.ok b) =>
      (process_service_links fs rest).map
        (fun broken => if b then broken else link :: broken)

/-- A filesystem with a genuine two-link symlink cycle. -/
def cycleFs : Fs :=
  [("/a", .symlink "/b"), ("/b", .symlink "/a")]

/-- C7 counterexample: on a genuine symlink cycle the chase does not loop
infinitely — already within a single loop iteration (and with the embedding's
full bound) it returns a result: `Ok(false)`, because the `fs::metadata` call
itself follows symlinks and fails with `ELOOP` on the cycle, which the code
treats as a dangling target. -/
theorem symlink_cycle_returns_counterexample :
    is_valid_link cycleFs "/a" = some (.ok false) ∧
      is_valid_link_loop cycleFs 1 "/a" = some (.ok false) := by
  refine ⟨?_, ?_⟩ <;> decide

/-- C7 (amended): the chase in `is_valid_link` has no cycle detection of its
own, but it cannot run forever: `fs::metadata` resolves symlinks itself and
never reports a symlink file type (it fails with `ELOOP` on a cycle), so the
loop's continue branch is unreachable and the loop returns a result in its
first iteration on every input — in particular a genuine cycle yields
`Ok(false)` rather than an infinite loop. -/
theorem is_valid_link_loop_terminates (fs : Fs) (fuel : Nat) (link : String)
    (h : 1 ≤ fuel) :
    is_valid_link_loop fs fuel link = is_valid_link_loop fs 1 link ∧
      (is_valid_link_loop fs 1 link).isSome = true := by
  cases fuel with
  | zero => exact absurd h (by omega)
  | succ n =>
    refine ⟨?_, ?_⟩
    · cases hrl : readLink fs link with
      | error e => simp only [is_valid_link_loop, hrl]
      | ok t =>
        cases hmd : metadata fs t with
        | error e => simp only [is_valid_link_loop, hrl, hmd]
        | ok mt =>
          cases mt with
          | file => simp only [is_valid_link_loop, hrl, hmd]
          | dir => simp only [is_valid_link_loop, hrl, hmd]
          | other => simp only [is_valid_link_loop, hrl, hmd]
          | symlink => exact absurd hmd (statResolve_ne_symlink fs MAXSYMLINKS t)
    · cases hrl : readLink fs link with
      | error e => simp only [is_valid_link_loop, hrl, Option.isSome_some]
      | ok t =>
        cases hmd : metadata fs t with
        | error e => simp only [is_valid_link_loop, hrl, hmd, Option.isSome_some]
        | ok mt =>
          cases mt with
          | file => simp only [is_valid_link_loop, hrl, hmd, Option.isSome_some]
          | dir => simp only [is_valid_link_loop, hrl, hmd, Option.isSome_some]
          | other => simp only [is_valid_link_loop, hrl, hmd, Option.isSome_some]
          | symlink => exact absurd hmd (statResolve_ne_symlink fs MAXSYMLINKS t)

theorem is_valid_link_loop_terminates_witness :
    1 ≤ 5 ∧
      (is_valid_link_loop cycleFs 5 "/a" = is_valid_link_loop cycleFs 1 "/a" ∧
        (is_valid_link_loop cycleFs 1 "/a").isSome = true) :=
  ⟨by decide, is_valid_link_loop_terminates cycleFs 5 "/a" (by decide)⟩

/-- A filesystem where one enabled-service link resolves to a directory and a
second link dangles. -/
def dirTargetFs : Fs :=
  [("/l1", .symlink "/d"), ("/d", .dir), ("/l2", .symlink "/missing")]

/-- C6 counterexample: a link whose chase ends at a directory makes
`is_valid_link` return an error, and `main` `unwrap`s it: the whole
service-link run aborts (`none`), skipping the remaining links — even though
checking the remaining link alone would succeed and report it broken. -/
theorem unexpected_file_type_aborts_counterexample :
    is_valid_link dirTargetFs "/l1" = some (.error "Unexpected file type for /d") ∧
      process_service_links dirTargetFs ["/l1", "/l2"] = none ∧
      process_service_links dirTargetFs ["/l2"] = some ["/l2"] := by
  refine ⟨?_, ?_, ?_⟩ <;> decide

/-- C6 (amended): an enabled-service link whose chase ends at an unexpected
file type makes `is_valid_link` return an error; `main` unwraps that error,
so it aborts the whole service-link run (a panic), not just that one link's
check — no remaining link is processed. -/
theorem unexpected_file_type_aborts_run (fs : Fs) (link : String)
    (rest : List String) (e : String)
    (h : is_valid_link fs link = some (.error e)) :
    process_service_links fs (link :: rest) = none := by
  simp only [process_service_links, h]

theorem unexpected_file_type_aborts_run_witness :
    is_valid_link dirTargetFs "/l1" = some (.error "Unexpected file type for /d") ∧
      process_service_links dirTargetFs ["/l1", "/l2"] = none :=
  ⟨by decide,
   unexpected_file_type_aborts_run dirTargetFs "/l1" ["/l2"]
     "Unexpected file type for /d" (by decide)⟩

/-- Parsed version of the installed Python package (src/main.rs lines 39-44). -/
structure PythonPackageVersion where
  major : Nat
  minor : Nat
  release : Nat
  package : Nat
  deriving Repr, DecidableEq

/-- Rust `Option::ok_or_else` specialised to the error type in use. -/
def exceptOfOption {α : Type} (o : Option α) (msg : String) : Except String α :=
  match o with
  | none => .error msg
  | some a => .ok a

/-- Embedding of Rust `u8::from_str`: an optional leading `+`, then one or
more decimal digits, with the value required to fit in eight bits. -/
def parse_u8 (s : List Char) : Except String Nat :=
  let digits :=
    match s with
    | '+' :: rest => rest
    | _ => s
  if digits.isEmpty then .error "cannot parse integer from empty string"
  else if digits.all (fun c => c.isDigit) then
    let n := digits.foldl (fun acc c => acc * 10 + (c.toNat - 48)) 0
    if n ≤ 255 then .ok n else .error "number too large to fit in target type"
  else .error "invalid digit found in string"

/-- The version-string parsing of `get_python_version` (src/main.rs lines
78-105): split on `.`, parse the first two pieces as `u8`, split the third
piece on `-`, parse its first two pieces as `u8`; every missing piece or
failed numeric parse is an error. -/
def parse_python_version (version_str : String) : Except String PythonPackageVersion := do
  let dotParts := splitChar '.' version_str.toList
  let p0 ← exceptOfOption dotParts[0]?
      "Unexpected pacman output: unable to parse Python version major part"
  let major ← parse_u8 p0
  let p1 ← exceptOfOption dotParts[1]?
      "Unexpected pacman output: unable to parse Python version minor part"
  let minor ← parse_u8 p1
  let p2 ← exceptOfOption dotParts[2]?
      "Unexpected pacman output: unable to parse Python version release/package part"
  let dashParts := splitChar '-' p2
  let r0 ← exceptOfOption dashParts[0]?
      "Unexpected pacman output: unable to parse Python version release part"
  let release ← parse_u8 r0
  let r1 ← exceptOfOption dashParts[1]?
      "Unexpected pacman output: unable to parse Python version package part"
  let package ← parse_u8 r1
  return { major := major, minor := minor, release := release, package := package }

/-- C8: the interpreter version string `1.2.3-4` parses to major 1, minor 2,
release 3, package release 4; `1.2` fails with a parse error (missing
release/package part); `1.2.3` fails with a parse error (missing package
part). -/
theorem parse_python_version_cases :
    parse_python_version "1.2.3-4" =
        .ok { major := 1, minor := 2, release := 3, package := 4 } ∧
      parse_python_version "1.2" =
        .error "Unexpected pacman output: unable to parse Python version release/package part" ∧
      parse_python_version "1.2.3" =
        .error "Unexpected pacman output: unable to parse Python version package part" := by
  refine ⟨?_, ?_, ?_⟩ <;> decide

end CheckBrokenPackages
